import Mathlib

/-!
Verification of the AFDC_API data-synchronization core.

This file gives a shallow embedding, in Lean 4, of the parts of the
repository that the specification's claims are about:

* `src/tools/sql.py` — class `SQL`: `create_database`, `create_tables`,
  `create_read_only_users`, `df_insert_to_database`,
  `generate_sql_row_insert`, `execute_batch_sql_commands`, `truncate_db`;
* `src/tools/db_connection.py` — class `DatabaseConnection`
  (`__enter__` / `__exit__` context manager).

Python strings are modelled as `List Char` (for the SQL-statement builders)
or `String` (for names); dataframe rows are association lists from column
names to scalar values; the destination database is modelled by explicit
catalog/privilege state records; statement execution that may raise is
modelled with oracles (`execOk`, `fails`) and `Except`-style short
circuiting; the `with`-statement connection lifecycle is modelled by an
event-trace combinator.
-/

namespace AFDC

/-- The single-quote character (code 39) that the serializer strips. -/
def squote : Char := Char.ofNat 39

/-- Opening curly brace (code 123), the placeholder delimiter of Python
format strings. -/
def lbrace : Char := Char.ofNat 123

/-- Closing curly brace (code 125). -/
def rbrace : Char := Char.ofNat 125

/-- Decimal digit characters of a natural number, structurally recursive
on a fuel bound so that it reduces definitionally (`n + 1` fuel always
suffices since `n / 10 < n` for `n ≥ 10`). -/
def natCharsAux : Nat → Nat → List Char
  | 0, _ => []
  | fuel + 1, n =>
      if n < 10 then [Nat.digitChar n]
      else natCharsAux fuel (n / 10) ++ [Nat.digitChar (n % 10)]

/-- Decimal digit characters of a natural number, most significant first;
this is the `str()` form used by Python for a non-negative integer. -/
def natChars (n : Nat) : List Char := natCharsAux (n + 1) n

/-- Decimal character form of an integer (Python `str()` of an `int`). -/
def intChars : Int → List Char
  | Int.ofNat n => natChars n
  | Int.negSucc n => '-' :: natChars (n + 1)

/-- Scalar value of one dataframe cell, as the pipeline feeds it to
`SQL.generate_sql_row_insert`: the spec's Row model (§3) allows string,
number, boolean, or null/missing (`NaN`/`None`/`NaT`) cells; numbers are
modelled by integers (their rendered form is what matters here). `null`
is exactly the case where `pd.isna` holds in the source. -/
inductive Val where
  | null
  | vstr (s : String)
  | vint (n : Int)
  | vbool (b : Bool)
deriving DecidableEq

/-- Python `str()` of a non-null scalar, as interpolated by the f-string
in `generate_sql_row_insert`. -/
def pyStrChars : Val → List Char
  | Val.null => "None".data
  | Val.vstr s => s.data
  | Val.vint n => intChars n
  | Val.vbool b => if b then "True".data else "False".data

/-- Embedding of the Python replace call of the serializer, which replaces
the one-character single-quote pattern by the empty string — that is, it
deletes every occurrence of the quote. -/
def pyRemoveSQuote (cs : List Char) : List Char :=
  cs.filter (fun c => c ≠ squote)

/-- Embedding of Python `sep.join(xs)`. -/
def pyJoin (sep : List Char) : List (List Char) → List Char
  | [] => []
  | [x] => x
  | x :: xs => x ++ sep ++ pyJoin sep xs

/-- The literal emitted for one cell by `SQL.generate_sql_row_insert`
(lines 353-362 of `sql.py`): `NULL` when `pd.isna(value)`; for a `str`
value its text with embedded single quotes removed, wrapped in single
quotes; otherwise `str(value)` wrapped in single quotes. -/
def valueLiteral (v : Val) : List Char :=
  match v with
  | Val.null => "NULL".data
  | Val.vstr s => squote :: pyRemoveSQuote s.data ++ [squote]
  | v => squote :: pyStrChars v ++ [squote]

/-- Embedding of `SQL.generate_sql_row_insert(table, data_series)`.
The source first builds the template
`INSERT INTO \n\t{table} ({cols})\nVALUES\n\t({placeholders});\n`
with one `{col}` placeholder per column and then substitutes each
placeholder by the cell's literal via `str.format(**row_dict)`;
for distinct, brace-free column names (dataframe columns are SQL
identifiers) the two-phase build is exactly this direct interpolation. -/
def generate_sql_row_insert (table : String) (row : List (String × Val)) : List Char :=
  "INSERT INTO \n\t".data ++ table.data ++ " (".data
    ++ pyJoin ", ".data (row.map (fun cv => cv.1.data))
    ++ ")\nVALUES\n\t(".data
    ++ pyJoin ", ".data (row.map (fun cv => valueLiteral cv.2))
    ++ ");\n".data

/-- A well-formed value literal: either the bare `NULL` keyword or a
single-quoted literal whose body contains no (unescaped) single quote. -/
def litOK (cs : List Char) : Prop :=
  cs = "NULL".data ∨ ∃ body, cs = squote :: body ++ [squote] ∧ squote ∉ body

/-- Python `str.lower` on one character, restricted to ASCII (the names it
is applied to — `NAMESPACE`, database names — are ASCII identifiers). -/
def pyCharLower (c : Char) : Char :=
  if c.toNat ≥ 65 ∧ c.toNat ≤ 90 then Char.ofNat (c.toNat + 32) else c

/-- Python `str.upper` on one character, restricted to ASCII. -/
def pyCharUpper (c : Char) : Char :=
  if c.toNat ≥ 97 ∧ c.toNat ≤ 122 then Char.ofNat (c.toNat - 32) else c

/-- Python `s.lower()` (ASCII). -/
def pyLower (s : String) : String := String.mk (s.data.map pyCharLower)

/-- Python `s.upper()` (ASCII). -/
def pyUpper (s : String) : String := String.mk (s.data.map pyCharUpper)

/-- The name the existence check of `SQL.create_database` compares against
the catalog column `datname`: `self.database`, which `__init__` sets to
`NAMESPACE.lower()` (sql.py lines 19-21 and 219-221). -/
def check_db (ns : String) : String := pyLower ns

/-- The database name interpolated into the statement
CREATE DATABASE f-string of sql.py line 228, which interpolates
the value of self.database.upper into the statement. -/
def create_db_stmt_name (ns : String) : String := pyUpper (pyLower ns)

/-- Destination-side catalog state seen by `SQL.create_database`: the list
of database names (`pg_database.datname`) and the set of provisioned
extensions, as (database, extension) pairs. -/
structure Catalog where
  databases : List String
  extensions : List (String × String)
deriving DecidableEq

/-- Embedding of `SQL.create_database` (sql.py lines 200-244) on the happy
path (connections succeed, statements succeed). `fold` is the
destination's folding of the unquoted identifier in `CREATE DATABASE`
(PostgreSQL folds unquoted identifiers to lower case; the theorems that
need a concrete destination instantiate `fold := pyLower`). Returns the
new catalog plus two flags: whether `CREATE DATABASE` was executed and
whether `CREATE EXTENSION postgis` was executed. -/
def create_database (fold : String → String) (ns : String) (cat : Catalog) :
    Catalog × Bool × Bool :=
  let database := pyLower ns
  let db_exists := database ∈ cat.databases
  if db_exists then
    (cat, false, false)
  else
    let cat1 : Catalog :=
      { cat with databases := cat.databases ++ [fold (pyUpper database)] }
    let cat2 : Catalog :=
      { cat1 with extensions := cat1.extensions ++ [(database, "postgis")] }
    (cat2, true, true)

/-- One SQL statement issued by `SQL.create_read_only_users`
(sql.py lines 51-129). -/
inductive Stmt where
  | selectRoleExists (u : String)
  | createUser (u : String)
  | grantConnect (db : String) (u : String)
  | grantUsage (schema : String) (u : String)
  | grantSelect (table : String) (u : String)
deriving DecidableEq

/-- Is the statement one of the three grant kinds? -/
def isGrantStmt : Stmt → Bool
  | Stmt.grantConnect _ _ => true
  | Stmt.grantUsage _ _ => true
  | Stmt.grantSelect _ _ => true
  | _ => false

/-- Destination-side role/privilege state. -/
structure PrivState where
  roles : List String
  connectPrivs : List (String × String)
  usagePrivs : List (String × String)
  selectPrivs : List (String × String)
deriving DecidableEq

/-- Set-like insertion: grants at the destination are idempotent, so
applying an already-present privilege changes nothing. -/
def insertIfAbsent {α : Type} [DecidableEq α] (x : α) (l : List α) : List α :=
  if x ∈ l then l else l ++ [x]

/-- Effect of one successfully executed statement on the destination
state. -/
def applyStmt (st : PrivState) : Stmt → PrivState
  | Stmt.selectRoleExists _ => st
  | Stmt.createUser u => { st with roles := insertIfAbsent u st.roles }
  | Stmt.grantConnect db u =>
      { st with connectPrivs := insertIfAbsent (db, u) st.connectPrivs }
  | Stmt.grantUsage sch u =>
      { st with usagePrivs := insertIfAbsent (sch, u) st.usagePrivs }
  | Stmt.grantSelect t u =>
      { st with selectPrivs := insertIfAbsent (t, u) st.selectPrivs }

/-- Destination-side error condition for a statement: `CREATE USER` on an
existing role errors; the catalog query and (idempotent) grants do not. -/
def stmtErrors (st : PrivState) (s : Stmt) : Bool :=
  match s with
  | Stmt.createUser u => decide (u ∈ st.roles)
  | _ => false

/-- Execute a statement list against the destination; an erroring
statement raises, which aborts the rest (nothing in
`create_read_only_users` catches, and `DatabaseConnection.__exit__`
does not suppress). -/
def runStmts (st : PrivState) : List Stmt → Except Stmt PrivState
  | [] => Except.ok st
  | s :: rest =>
      if stmtErrors st s then Except.error s
      else runStmts (applyStmt st s) rest

/-- The statement sequence the body of `SQL.create_read_only_users` issues
for one user, given the result of the `pg_roles` existence query.
Mirrors sql.py lines 66-126: the existence `SELECT` runs first; then
`cur.execute(stmt)` runs unconditionally — when the role exists, `stmt`
still holds the existence `SELECT` (the `CREATE USER` assignment is inside
`if not user_exists`), so the `SELECT` is executed a second time and no
`CREATE USER` is issued; then `GRANT CONNECT` (first connection),
`GRANT USAGE ON SCHEMA public` and one `GRANT SELECT` per read-only table
(second connection). -/
def user_provision_stmts (user_exists : Bool) (db : String)
    (tables : List String) (u : String) : List Stmt :=
  [Stmt.selectRoleExists u,
   if user_exists then Stmt.selectRoleExists u else Stmt.createUser u,
   Stmt.grantConnect db u,
   Stmt.grantUsage "public" u]
  ++ tables.map (fun t => Stmt.grantSelect t u)

/-- Statements issued for one user, with the existence flag obtained from
the destination state (the `pg_roles` query of sql.py lines 71-78). -/
def create_read_only_users_user (st : PrivState) (db : String)
    (tables : List String) (u : String) : List Stmt :=
  user_provision_stmts (decide (u ∈ st.roles)) db tables u

/-- One full provisioning pass for one user: generate the statements from
the current destination state and execute them. -/
def provisionUser (st : PrivState) (db : String) (tables : List String)
    (u : String) : Except Stmt PrivState :=
  runStmts st (create_read_only_users_user st db tables u)

/-- Execution with an external failure oracle (constraint/connectivity
errors at the destination): returns the statements actually executed, in
order, and the statement whose execution raised, if any; statements after
the first failure are not executed. -/
def runTrace (fails : Stmt → Bool) : List Stmt → List Stmt × Option Stmt
  | [] => ([], none)
  | s :: rest =>
      if fails s then ([s], some s)
      else
        let r := runTrace fails rest
        (s :: r.1, r.2)

/-- Connection lifecycle event (psycopg2 `connect` / `close`), tagged with
a per-operation connection number. -/
inductive ConnEvent where
  | openConn (id : Nat)
  | closeConn (id : Nat)
deriving DecidableEq

/-- Outcome of running a code region: the connection events it produced
and the exception it raised, if any. -/
def OpRun : Type := List ConnEvent × Option Unit

/-- A region with no connection activity that raises iff `fail`. -/
def bodyT (fail : Bool) : OpRun :=
  ([], if fail then some () else none)

/-- Sequencing: if the first region raised, the second never runs. -/
def seqT (a b : OpRun) : OpRun :=
  match a.2 with
  | some e => (a.1, some e)
  | none => (a.1 ++ b.1, b.2)

/-- Embedding of `with DatabaseConnection(...) as conn: body`:
`__enter__` opens the connection, the body runs, and `__exit__`
(db_connection.py lines 22-24) closes the connection unconditionally and
returns `None` (falsy), so an exception from the body propagates
unchanged after the close. -/
def withConnT (id : Nat) (body : OpRun) : OpRun :=
  (ConnEvent.openConn id :: body.1 ++ [ConnEvent.closeConn id], body.2)

/-- LIFO scope checker: simulate the stack of open connections; `none`
means a close did not match the innermost open connection. -/
def scopeRun (stack : List Nat) : List ConnEvent → Option (List Nat)
  | [] => some stack
  | ConnEvent.openConn id :: r => scopeRun (id :: stack) r
  | ConnEvent.closeConn id :: r =>
      match stack with
      | top :: rest => if top = id then scopeRun rest r else none
      | [] => none

/-- An event list is well scoped when, started from no open connection,
every close matches the innermost open and no connection remains open at
the end. -/
def wellScoped (evs : List ConnEvent) : Prop :=
  scopeRun [] evs = some []

/-- Largest number of simultaneously open connections along the trace. -/
def maxDepthAux (cur best : Nat) : List ConnEvent → Nat
  | [] => best
  | ConnEvent.openConn _ :: r => maxDepthAux (cur + 1) (max best (cur + 1)) r
  | ConnEvent.closeConn _ :: r => maxDepthAux (cur - 1) best r

/-- Maximum simultaneous open-connection count of an event list. -/
def maxDepth (evs : List ConnEvent) : Nat := maxDepthAux 0 0 evs

/-- Connection trace of `SQL.create_database` (sql.py lines 200-244): one
server-level connection for the existence check / create (body may
raise: `fail1`), then — only when the database was just created and the
first block did not raise — a database-level connection for
`CREATE EXTENSION postgis` (body may raise: `fail2`). -/
def create_database_conn_trace (dbExists fail1 fail2 : Bool) : OpRun :=
  seqT (withConnT 0 (bodyT fail1))
    (if dbExists then ([], none) else withConnT 1 (bodyT fail2))

/-- Connection trace of `SQL.create_tables` (sql.py lines 246-282): one
database-level connection. -/
def create_tables_conn_trace (fail : Bool) : OpRun :=
  withConnT 0 (bodyT fail)

/-- Connection trace of `SQL.truncate_db` (sql.py lines 383-413): one
database-level connection. -/
def truncate_db_conn_trace (fail : Bool) : OpRun :=
  withConnT 0 (bodyT fail)

/-- Connection trace of `SQL.execute_batch_sql_commands`
(sql.py lines 367-381): one database-level connection; `fail` is the
batch `cur.execute` raising. -/
def execute_batch_conn_trace (fail : Bool) : OpRun :=
  withConnT 0 (bodyT fail)

/-- Connection trace of one iteration of the user loop of
`SQL.create_read_only_users`: the second `with DatabaseConnection` block
(sql.py line 99, grants on the target database) is nested inside the
first one (line 60, server-level), so the second connection is opened
while the first is still open. `failA` is a raise in the first block
before the nested block; `failB` a raise inside the nested block. -/
def crou_iter_conn_trace (failA failB : Bool) : OpRun :=
  withConnT 0 (seqT (bodyT failA) (withConnT 1 (bodyT failB)))

/-- Connection trace of `SQL.create_read_only_users`: one iteration per
element of `scen` (the doubled `for user in users` loop runs the body
`len(users)^2` times; each body is one `crou_iter_conn_trace`); an
uncaught raise aborts the remaining iterations. -/
def create_read_only_users_conn_trace (scen : List (Bool × Bool)) : OpRun :=
  scen.foldl (fun acc s => seqT acc (crou_iter_conn_trace s.1 s.2)) ([], none)

/-- Connection trace of `SQL.df_insert_to_database`
(sql.py lines 284-335): nothing when the dataframe has no rows (the
`if sql_commands:` guard); otherwise the batch attempt (whose raise is
caught by the `try`/`except` that sets `retry_insert`), then, only if the
batch raised, one database-level connection for the per-row loop (whose
row-level raises are caught by the inner `try`/`except`). -/
def df_insert_conn_trace (rows : List (List (String × Val))) (batchFail : Bool) : OpRun :=
  if rows.isEmpty then ([], none)
  else
    let batch := execute_batch_conn_trace batchFail
    if batchFail then (batch.1 ++ (withConnT 1 (bodyT false)).1, none)
    else (batch.1, none)

/-- The stored connection of a `DatabaseConnection` instance. -/
structure DBConn where
  conn : Option Nat
deriving DecidableEq

/-- Embedding of `DatabaseConnection.__exit__` (db_connection.py lines
22-24): closes the connection, resets the stored connection to `None`,
and falls off the end — returning Python `None`. The returned
`Option Bool` is the `__exit__` return value (`none` = Python `None`). -/
def databaseConnection_exit (_dc : DBConn) : DBConn × Option Bool :=
  ({ conn := none }, none)

/-- Python truthiness of an `__exit__` return value: the `with` statement
suppresses the body's exception iff this is `true`. -/
def pyTruthy : Option Bool → Bool
  | none => false
  | some b => b

/-- One database action of `SQL.df_insert_to_database`. -/
inductive DbAction where
  | execBatch
  | execRow (cmd : List Char)
  | rollback
deriving DecidableEq

/-- The per-row fallback loop (sql.py lines 317-333): for each
(row, statement) pair in order, execute the statement; on a raise, append
the row (`dataframe.iloc[i]`) to the failures and issue `conn.rollback()`;
on success continue (auto-commit is on); either way the cursor is closed
and the loop continues — there is no further retry. -/
def perRowLoop (execOk : List Char → Bool) :
    List ((List (String × Val)) × List Char) →
      List (List (String × Val)) × List DbAction
  | [] => ([], [])
  | (row, cmd) :: rest =>
      let tail := perRowLoop execOk rest
      if execOk cmd then
        (tail.1, DbAction.execRow cmd :: tail.2)
      else
        (row :: tail.1, DbAction.execRow cmd :: DbAction.rollback :: tail.2)

/-- Embedding of `SQL.df_insert_to_database(dataframe, table_name)`
(sql.py lines 284-335). `execOk` is the destination's verdict on
executing one SQL text (deterministic per text). Returns the failure
rows and the database actions performed: with no rows, nothing happens;
otherwise the concatenated batch is attempted once
(`execute_batch_sql_commands`, a single `cur.execute` on
`''.join(sql_commands)`); on success the failure set is empty; on a raise
the per-row fallback runs. -/
def df_insert_to_database (table : String) (rows : List (List (String × Val)))
    (execOk : List Char → Bool) :
    List (List (String × Val)) × List DbAction :=
  let sql_commands := rows.map (generate_sql_row_insert table)
  if sql_commands.isEmpty then ([], [])
  else if execOk sql_commands.flatten then ([], [DbAction.execBatch])
  else
    let r := perRowLoop execOk (rows.zip sql_commands)
    (r.1, DbAction.execBatch :: r.2)

/-- State machine for checking rollback placement: `pending` records that
the previous action was a row execution that failed and whose rollback has
not yet been seen; a rollback is legal exactly when `pending` holds, and
a failed row execution must be followed immediately by its rollback. -/
def rollbackDisciplineAux (execOk : List Char → Bool) (pending : Bool) :
    List DbAction → Bool
  | [] => !pending
  | DbAction.rollback :: rest => pending && rollbackDisciplineAux execOk false rest
  | DbAction.execBatch :: rest => !pending && rollbackDisciplineAux execOk false rest
  | DbAction.execRow c :: rest =>
      !pending && rollbackDisciplineAux execOk (!execOk c) rest

/-- Check that a rollback appears exactly immediately after each failed
row execution and nowhere else. -/
def rollbackDiscipline (execOk : List Char → Bool) (l : List DbAction) : Bool :=
  rollbackDisciplineAux execOk false l

/-- Number of row executions in an action list. -/
def countExecRow : List DbAction → Nat
  | [] => 0
  | DbAction.execRow _ :: r => countExecRow r + 1
  | _ :: r => countExecRow r

/-- Number of rollbacks in an action list. -/
def countRollback : List DbAction → Nat
  | [] => 0
  | DbAction.rollback :: r => countRollback r + 1
  | _ :: r => countRollback r

theorem char_toNat_ofNat (n : Nat) (h : n < 55296) : (Char.ofNat n).toNat = n := by
  have hv : n.isValidChar := Or.inl h
  simp [Char.ofNat, dif_pos hv, Char.ofNatAux, Char.toNat, UInt32.ofNat',
    UInt32.toNat, BitVec.toNat_ofNatLt]

theorem char_eq_of_toNat_eq {a b : Char} (h : a.toNat = b.toNat) : a = b :=
  Char.ext (UInt32.ext h)

theorem pyCharLower_upper_lower (c : Char) :
    pyCharLower (pyCharUpper (pyCharLower c)) = pyCharLower c := by
  unfold pyCharLower pyCharUpper
  by_cases h1 : c.toNat ≥ 65 ∧ c.toNat ≤ 90
  · rw [if_pos h1]
    have hv : (Char.ofNat (c.toNat + 32)).toNat = c.toNat + 32 :=
      char_toNat_ofNat _ (by omega)
    rw [hv]
    rw [if_pos (by omega : c.toNat + 32 ≥ 97 ∧ c.toNat + 32 ≤ 122)]
    have hv2 : (Char.ofNat (c.toNat + 32 - 32)).toNat = c.toNat + 32 - 32 :=
      char_toNat_ofNat _ (by omega)
    rw [hv2]
    rw [if_pos (by omega : c.toNat + 32 - 32 ≥ 65 ∧ c.toNat + 32 - 32 ≤ 90)]
    congr 1
  · rw [if_neg h1]
    by_cases h2 : c.toNat ≥ 97 ∧ c.toNat ≤ 122
    · rw [if_pos h2]
      have hv : (Char.ofNat (c.toNat - 32)).toNat = c.toNat - 32 :=
        char_toNat_ofNat _ (by omega)
      rw [hv]
      rw [if_pos (by omega : c.toNat - 32 ≥ 65 ∧ c.toNat - 32 ≤ 90)]
      apply char_eq_of_toNat_eq
      have hv3 : (Char.ofNat (c.toNat - 32 + 32)).toNat = c.toNat - 32 + 32 :=
        char_toNat_ofNat _ (by omega)
      rw [hv3]
      omega
    · rw [if_neg h2, if_neg h1]

theorem pyLower_pyUpper_pyLower (s : String) :
    pyLower (pyUpper (pyLower s)) = pyLower s := by
  unfold pyLower pyUpper
  simp only [List.map_map]
  congr 1
  apply List.map_congr_left
  intro c _
  exact pyCharLower_upper_lower c

/-- Claim C4 counterexample: with the repository's namespace `AFDC_API`,
the name compared against the catalog (`self.database`, the lowercased
namespace) and the name in the `CREATE DATABASE` statement
(`self.database.upper()`) are not identical character for character. -/
theorem claim4_counterexample :
    check_db "AFDC_API" ≠ create_db_stmt_name "AFDC_API" := by
  decide

/-- Claim C4 (amended): the two names agree only up to ASCII letter case —
the `CREATE DATABASE` name is exactly the uppercase image of the checked
name, and its lowercase folding (the folding PostgreSQL applies to the
unquoted identifier, so the effective name of the created database) is
exactly the name the existence check uses; so a database created on one
run is still found by the check on a later run, but not because the two
strings are identical. -/
theorem claim4_create_name_vs_check_name (ns : String) :
    create_db_stmt_name ns = pyUpper (check_db ns) ∧
    pyLower (create_db_stmt_name ns) = check_db ns := by
  refine ⟨rfl, ?_⟩
  exact pyLower_pyUpper_pyLower ns

/-- Claim C5: `SQL.create_database` executes `CREATE DATABASE` exactly when
the lowercased namespace is absent from the catalog's database names, and
executes `CREATE EXTENSION postgis` exactly when the database was created
in this same call; when the database is already present the call changes
nothing and issues neither statement; and (with the destination's
lower-case folding of the unquoted created identifier) a second call
right after a first one is such a no-op. -/
theorem claim5_create_database_extension_only_on_create
    (fold : String → String) (ns : String) (cat : Catalog) :
    (pyLower ns ∈ cat.databases → create_database fold ns cat = (cat, false, false)) ∧
    ((create_database fold ns cat).2.1 = true ↔ pyLower ns ∉ cat.databases) ∧
    ((create_database fold ns cat).2.2 = (create_database fold ns cat).2.1) ∧
    (pyLower ns ∉ cat.databases →
      ((create_database fold ns cat).1).extensions
        = cat.extensions ++ [(pyLower ns, "postgis")]) ∧
    (create_database pyLower ns ((create_database pyLower ns cat).1)
        = ((create_database pyLower ns cat).1, false, false)) := by
  by_cases hmem : pyLower ns ∈ cat.databases
  · refine ⟨fun _ => ?_, ?_, ?_, fun hab => absurd hmem hab, ?_⟩
    · simp [create_database, hmem]
    · simp [create_database, hmem]
    · simp [create_database, hmem]
    · simp [create_database, hmem]
  · refine ⟨fun hmem2 => absurd hmem2 hmem, ?_, ?_, ?_, ?_⟩
    · simp [create_database, hmem]
    · simp [create_database, hmem]
    · intro _
      simp [create_database, hmem]
    · have hfold : pyLower (pyUpper (pyLower ns)) = pyLower ns :=
        pyLower_pyUpper_pyLower ns
      have hmem2 : pyLower ns ∈
          ((create_database pyLower ns cat).1).databases := by
        simp [create_database, hmem, hfold]
      simp [create_database, hmem, hfold]

/-- Witness for C5: on an empty catalog and the repository namespace,
the first call creates the database and the postgis extension, and the
immediately following second call is a no-op. -/
theorem claim5_witness :
    (create_database pyLower "AFDC_API" ⟨[], []⟩).2.1 = true ∧
    ((create_database pyLower "AFDC_API" ⟨[], []⟩).1).extensions
      = [(pyLower "AFDC_API", "postgis")] ∧
    create_database pyLower "AFDC_API"
        ((create_database pyLower "AFDC_API" ⟨[], []⟩).1)
      = ((create_database pyLower "AFDC_API" ⟨[], []⟩).1, false, false) := by
  have h := claim5_create_database_extension_only_on_create pyLower "AFDC_API" ⟨[], []⟩
  exact ⟨h.2.1.mpr (by decide), by simpa using h.2.2.2.1 (by decide), h.2.2.2.2⟩

theorem insertIfAbsent_of_mem {α : Type} [DecidableEq α] {x : α} {l : List α}
    (h : x ∈ l) : insertIfAbsent x l = l := by
  simp [insertIfAbsent, h]

theorem self_mem_insertIfAbsent {α : Type} [DecidableEq α] (x : α) (l : List α) :
    x ∈ insertIfAbsent x l := by
  by_cases h : x ∈ l
  · simp [insertIfAbsent, h]
  · simp [insertIfAbsent, h]

theorem mem_insertIfAbsent_of_mem {α : Type} [DecidableEq α] {y : α} (x : α)
    {l : List α} (h : y ∈ l) : y ∈ insertIfAbsent x l := by
  by_cases hx : x ∈ l
  · simpa [insertIfAbsent, hx] using h
  · simp [insertIfAbsent, hx, h]

theorem runStmts_ok_of_no_createUser :
    ∀ (l : List Stmt) (st : PrivState), (∀ v, Stmt.createUser v ∉ l) →
      ∃ st2, runStmts st l = Except.ok st2 := by
  intro l
  induction l with
  | nil => exact fun st _ => ⟨st, rfl⟩
  | cons s rest ih =>
      intro st h
      have hs : stmtErrors st s = false := by
        cases s with
        | createUser v => exact absurd (List.mem_cons_self _ _) (h v)
        | selectRoleExists v => rfl
        | grantConnect a b => rfl
        | grantUsage a b => rfl
        | grantSelect a b => rfl
      obtain ⟨st2, hst2⟩ := ih (applyStmt st s) (fun v => fun hv => h v (List.mem_cons_of_mem _ hv))
      exact ⟨st2, by simp [runStmts, hs, hst2]⟩

theorem runStmts_map_grantSelect (u : String) :
    ∀ (tables : List String) (st : PrivState),
      runStmts st (tables.map (fun t => Stmt.grantSelect t u))
        = Except.ok (tables.foldl (fun s t => applyStmt s (Stmt.grantSelect t u)) st) := by
  intro tables
  induction tables with
  | nil => intro st; rfl
  | cons t rest ih =>
      intro st
      simp only [List.map_cons, List.foldl_cons]
      rw [show runStmts st (Stmt.grantSelect t u :: rest.map (fun t => Stmt.grantSelect t u))
            = runStmts (applyStmt st (Stmt.grantSelect t u)) (rest.map (fun t => Stmt.grantSelect t u))
          from rfl]
      exact ih _

theorem foldl_grantSelect_roles (u : String) :
    ∀ (tables : List String) (st : PrivState),
      (tables.foldl (fun s t => applyStmt s (Stmt.grantSelect t u)) st).roles = st.roles := by
  intro tables
  induction tables with
  | nil => intro st; rfl
  | cons t rest ih => intro st; simpa [applyStmt] using ih _

theorem foldl_grantSelect_connect (u : String) :
    ∀ (tables : List String) (st : PrivState),
      (tables.foldl (fun s t => applyStmt s (Stmt.grantSelect t u)) st).connectPrivs
        = st.connectPrivs := by
  intro tables
  induction tables with
  | nil => intro st; rfl
  | cons t rest ih => intro st; simpa [applyStmt] using ih _

theorem foldl_grantSelect_usage (u : String) :
    ∀ (tables : List String) (st : PrivState),
      (tables.foldl (fun s t => applyStmt s (Stmt.grantSelect t u)) st).usagePrivs
        = st.usagePrivs := by
  intro tables
  induction tables with
  | nil => intro st; rfl
  | cons t rest ih => intro st; simpa [applyStmt] using ih _

theorem foldl_grantSelect_mem_preserved (u : String) {x : String × String} :
    ∀ (tables : List String) (st : PrivState), x ∈ st.selectPrivs →
      x ∈ (tables.foldl (fun s t => applyStmt s (Stmt.grantSelect t u)) st).selectPrivs := by
  intro tables
  induction tables with
  | nil => intro st h; exact h
  | cons t rest ih =>
      intro st h
      simp only [List.foldl_cons]
      exact ih _ (by simpa [applyStmt] using mem_insertIfAbsent_of_mem (t, u) h)

theorem foldl_grantSelect_mem (u : String) :
    ∀ (tables : List String) (st : PrivState) (t : String), t ∈ tables →
      (t, u) ∈ (tables.foldl (fun s t => applyStmt s (Stmt.grantSelect t u)) st).selectPrivs := by
  intro tables
  induction tables with
  | nil => intro st t h; exact absurd h (List.not_mem_nil t)
  | cons t0 rest ih =>
      intro st t h
      simp only [List.foldl_cons]
      rcases List.mem_cons.mp h with h | h
      · subst h
        exact foldl_grantSelect_mem_preserved u rest _
          (by simpa [applyStmt] using self_mem_insertIfAbsent (t, u) st.selectPrivs)
      · exact ih _ t h

theorem privstate_eta (st : PrivState) :
    ({ roles := st.roles, connectPrivs := st.connectPrivs,
       usagePrivs := st.usagePrivs, selectPrivs := st.selectPrivs } : PrivState) = st := rfl

theorem applyStmt_grantConnect_of_mem {st : PrivState} {db u : String}
    (h : (db, u) ∈ st.connectPrivs) : applyStmt st (Stmt.grantConnect db u) = st := by
  simp [applyStmt, insertIfAbsent_of_mem h]

theorem applyStmt_grantUsage_of_mem {st : PrivState} {sch u : String}
    (h : (sch, u) ∈ st.usagePrivs) : applyStmt st (Stmt.grantUsage sch u) = st := by
  simp [applyStmt, insertIfAbsent_of_mem h]

theorem applyStmt_grantSelect_of_mem {st : PrivState} {t u : String}
    (h : (t, u) ∈ st.selectPrivs) : applyStmt st (Stmt.grantSelect t u) = st := by
  simp [applyStmt, insertIfAbsent_of_mem h]

theorem foldl_grantSelect_id (u : String) :
    ∀ (tables : List String) (st : PrivState),
      (∀ t ∈ tables, (t, u) ∈ st.selectPrivs) →
      tables.foldl (fun s t => applyStmt s (Stmt.grantSelect t u)) st = st := by
  intro tables
  induction tables with
  | nil => intro st _; rfl
  | cons t rest ih =>
      intro st h
      simp only [List.foldl_cons]
      rw [applyStmt_grantSelect_of_mem (h t (List.mem_cons_self t rest))]
      exact ih st (fun t2 ht2 => h t2 (List.mem_cons_of_mem t ht2))

theorem provisionUser_closed_form (st : PrivState) (db : String)
    (tables : List String) (u : String) :
    provisionUser st db tables u
      = Except.ok (tables.foldl (fun s t => applyStmt s (Stmt.grantSelect t u))
          (applyStmt (applyStmt ({ st with roles := insertIfAbsent u st.roles })
            (Stmt.grantConnect db u)) (Stmt.grantUsage "public" u))) := by
  by_cases hmem : u ∈ st.roles
  · have hd : decide (u ∈ st.roles) = true := decide_eq_true hmem
    have hst : ({ st with roles := insertIfAbsent u st.roles } : PrivState) = st := by
      rw [insertIfAbsent_of_mem hmem]
    rw [hst]
    unfold provisionUser create_read_only_users_user user_provision_stmts
    rw [hd]
    simp only [if_true]
    exact runStmts_map_grantSelect u tables _
  · have hd : decide (u ∈ st.roles) = false := decide_eq_false hmem
    unfold provisionUser create_read_only_users_user user_provision_stmts
    rw [hd]
    simp only [Bool.false_eq_true, if_false]
    show runStmts st (Stmt.selectRoleExists u :: Stmt.createUser u
      :: Stmt.grantConnect db u :: Stmt.grantUsage "public" u
      :: tables.map (fun t => Stmt.grantSelect t u)) = _
    rw [show runStmts st (Stmt.selectRoleExists u :: Stmt.createUser u
          :: Stmt.grantConnect db u :: Stmt.grantUsage "public" u
          :: tables.map (fun t => Stmt.grantSelect t u))
        = runStmts st (Stmt.createUser u :: Stmt.grantConnect db u
          :: Stmt.grantUsage "public" u :: tables.map (fun t => Stmt.grantSelect t u))
      from rfl]
    rw [show runStmts st (Stmt.createUser u :: Stmt.grantConnect db u
          :: Stmt.grantUsage "public" u :: tables.map (fun t => Stmt.grantSelect t u))
        = if stmtErrors st (Stmt.createUser u) then Except.error (Stmt.createUser u)
          else runStmts (applyStmt st (Stmt.createUser u))
            (Stmt.grantConnect db u :: Stmt.grantUsage "public" u
              :: tables.map (fun t => Stmt.grantSelect t u))
      from rfl]
    rw [show stmtErrors st (Stmt.createUser u) = decide (u ∈ st.roles) from rfl, hd]
    simp only [Bool.false_eq_true, if_false]
    exact runStmts_map_grantSelect u tables _

/-- Claim C6: for a non-admin user whose role already exists, the per-user
body of `SQL.create_read_only_users` issues no `CREATE USER` statement
(the stale existence `SELECT` is re-executed instead) and raises no
destination error, while `GRANT CONNECT`, `GRANT USAGE ON SCHEMA public`
and one `GRANT SELECT` per read-only table are issued on every run
regardless of state; consequently a second provisioning run started from
the state a first run produced returns that state unchanged. -/
theorem claim6_provisioning_idempotent (st : PrivState) (db : String)
    (tables : List String) (u : String) :
    (u ∈ st.roles →
      (∀ v, Stmt.createUser v ∉ create_read_only_users_user st db tables u) ∧
      (∃ st2, runStmts st (create_read_only_users_user st db tables u)
        = Except.ok st2)) ∧
    (Stmt.grantConnect db u ∈ create_read_only_users_user st db tables u ∧
     Stmt.grantUsage "public" u ∈ create_read_only_users_user st db tables u ∧
     ∀ t ∈ tables, Stmt.grantSelect t u ∈ create_read_only_users_user st db tables u) ∧
    (∀ st1, provisionUser st db tables u = Except.ok st1 →
      provisionUser st1 db tables u = Except.ok st1) := by
  refine ⟨?_, ?_, ?_⟩
  · intro hmem
    have hd : decide (u ∈ st.roles) = true := decide_eq_true hmem
    constructor
    · intro v
      simp [create_read_only_users_user, user_provision_stmts, hd]
    · apply runStmts_ok_of_no_createUser
      intro v
      simp [create_read_only_users_user, user_provision_stmts, hd]
  · refine ⟨?_, ?_, ?_⟩
    · by_cases hmem : u ∈ st.roles <;>
        simp [create_read_only_users_user, user_provision_stmts,
          decide_eq_true, decide_eq_false, hmem]
    · by_cases hmem : u ∈ st.roles <;>
        simp [create_read_only_users_user, user_provision_stmts,
          decide_eq_true, decide_eq_false, hmem]
    · intro t ht
      by_cases hmem : u ∈ st.roles <;>
        simp [create_read_only_users_user, user_provision_stmts,
          decide_eq_true, decide_eq_false, hmem, ht]
  · intro st1 h1
    have hcf := provisionUser_closed_form st db tables u
    rw [h1] at hcf
    have hst1 : st1 = tables.foldl (fun s t => applyStmt s (Stmt.grantSelect t u))
        (applyStmt (applyStmt ({ st with roles := insertIfAbsent u st.roles })
          (Stmt.grantConnect db u)) (Stmt.grantUsage "public" u)) :=
      Except.ok.inj hcf
    have hroles : u ∈ st1.roles := by
      rw [hst1, foldl_grantSelect_roles]
      exact self_mem_insertIfAbsent u st.roles
    have hconn : (db, u) ∈ st1.connectPrivs := by
      rw [hst1, foldl_grantSelect_connect]
      exact self_mem_insertIfAbsent _ _
    have husage : ("public", u) ∈ st1.usagePrivs := by
      rw [hst1, foldl_grantSelect_usage]
      exact self_mem_insertIfAbsent _ _
    have hsel : ∀ t ∈ tables, (t, u) ∈ st1.selectPrivs := by
      intro t ht
      rw [hst1]
      exact foldl_grantSelect_mem u tables _ t ht
    rw [provisionUser_closed_form st1 db tables u]
    rw [insertIfAbsent_of_mem hroles]
    rw [show ({ st1 with roles := st1.roles } : PrivState) = st1 from rfl]
    rw [applyStmt_grantConnect_of_mem hconn, applyStmt_grantUsage_of_mem husage,
      foldl_grantSelect_id u tables st1 hsel]

/-- Witness for C6: with the repository's read-only tables and an existing
role, no `CREATE USER` is issued, and re-running provisioning from the
state a first run produced leaves that state unchanged. -/
theorem claim6_witness :
    Stmt.createUser "afdc_ro" ∉
      create_read_only_users_user ⟨["afdc_ro"], [], [], []⟩ "afdc_api"
        ["station", "evse"] "afdc_ro" ∧
    provisionUser
        ⟨["afdc_ro"], [("afdc_api", "afdc_ro")], [("public", "afdc_ro")],
          [("station", "afdc_ro"), ("evse", "afdc_ro")]⟩
        "afdc_api" ["station", "evse"] "afdc_ro"
      = Except.ok
        ⟨["afdc_ro"], [("afdc_api", "afdc_ro")], [("public", "afdc_ro")],
          [("station", "afdc_ro"), ("evse", "afdc_ro")]⟩ := by
  have h := claim6_provisioning_idempotent ⟨["afdc_ro"], [], [], []⟩ "afdc_api"
    ["station", "evse"] "afdc_ro"
  exact ⟨(h.1 (by decide)).1 "afdc_ro", h.2.2 _ (by rfl)⟩

theorem runTrace_first_fail (fails : Stmt → Bool) :
    ∀ (l : List Stmt) (i : Nat) (hi : i < l.length),
      fails (l.get ⟨i, hi⟩) = true →
      (∀ j (hj : j < i), fails (l.get ⟨j, Nat.lt_trans hj hi⟩) = false) →
      runTrace fails l = (l.take (i + 1), some (l.get ⟨i, hi⟩)) := by
  intro l
  induction l with
  | nil => intro i hi; exact absurd hi (by simp)
  | cons s rest ih =>
      intro i hi hfail hearlier
      cases i with
      | zero =>
          simp only [List.get] at hfail
          simp [runTrace, hfail]
      | succ n =>
          have h0 : fails s = false := hearlier 0 (Nat.succ_pos n)
          have hn : n < rest.length := Nat.lt_of_succ_lt_succ hi
          have hrest := ih n hn hfail
            (fun j hj => hearlier (j + 1) (Nat.succ_lt_succ hj))
          simp only [runTrace, h0, Bool.false_eq_true, if_false, hrest,
            List.take_succ_cons]
          rfl

/-- Claim C7: in the per-user provisioning sequence of
`SQL.create_read_only_users`, if a grant statement is the first statement
whose execution raises, the exception surfaces to the caller (nothing
catches it and `DatabaseConnection.__exit__` returns a falsy value) and
exactly the statements up to and including that grant were executed —
no later statement of that user's sequence runs. -/
theorem claim7_grant_failure_aborts_and_surfaces (st : PrivState) (db : String)
    (tables : List String) (u : String) (fails : Stmt → Bool) (i : Nat)
    (hi : i < (create_read_only_users_user st db tables u).length)
    (hgrant : isGrantStmt ((create_read_only_users_user st db tables u).get ⟨i, hi⟩) = true)
    (hfail : fails ((create_read_only_users_user st db tables u).get ⟨i, hi⟩) = true)
    (hearlier : ∀ j (hj : j < i),
      fails ((create_read_only_users_user st db tables u).get ⟨j, Nat.lt_trans hj hi⟩) = false) :
    runTrace fails (create_read_only_users_user st db tables u)
      = ((create_read_only_users_user st db tables u).take (i + 1),
         some ((create_read_only_users_user st db tables u).get ⟨i, hi⟩)) ∧
    ((runTrace fails (create_read_only_users_user st db tables u)).2).isSome = true ∧
    ((runTrace fails (create_read_only_users_user st db tables u)).1).length = i + 1 := by
  have h := runTrace_first_fail fails (create_read_only_users_user st db tables u)
    i hi hfail hearlier
  refine ⟨h, by rw [h]; rfl, ?_⟩
  rw [h]
  simpa using Nat.succ_le_of_lt hi

/-- Witness for C7: with an empty destination state, user `afdc_ro` and
the repository's read-only tables, a failure of the
`GRANT USAGE ON SCHEMA public` statement (index 3 of the sequence) stops
execution right there and is reported to the caller. -/
theorem claim7_witness :
    runTrace (fun s => s == Stmt.grantUsage "public" "afdc_ro")
        (create_read_only_users_user ⟨[], [], [], []⟩ "afdc_api"
          ["station", "evse"] "afdc_ro")
      = ([Stmt.selectRoleExists "afdc_ro", Stmt.createUser "afdc_ro",
          Stmt.grantConnect "afdc_api" "afdc_ro",
          Stmt.grantUsage "public" "afdc_ro"],
         some (Stmt.grantUsage "public" "afdc_ro")) := by
  have h := claim7_grant_failure_aborts_and_surfaces ⟨[], [], [], []⟩ "afdc_api"
    ["station", "evse"] "afdc_ro" (fun s => s == Stmt.grantUsage "public" "afdc_ro")
    3 (by decide) (by decide) (by decide) (by decide)
  simpa using h.1

theorem scopeRun_append :
    ∀ (a b : List ConnEvent) (s : List Nat),
      scopeRun s (a ++ b) = (scopeRun s a).bind (fun s2 => scopeRun s2 b) := by
  intro a
  induction a with
  | nil => intro b s; rfl
  | cons e rest ih =>
      intro b s
      cases e with
      | openConn id => simpa [scopeRun] using ih b (id :: s)
      | closeConn id =>
          cases s with
          | nil => simp [scopeRun]
          | cons top stack =>
              by_cases h : top = id
              · simpa [scopeRun, h] using ih b stack
              · simp [scopeRun, h]

theorem balanced_bodyT (f : Bool) : ∀ s, scopeRun s (bodyT f).1 = some s :=
  fun _ => rfl

theorem balanced_withConnT {body : OpRun} (id : Nat)
    (hb : ∀ s, scopeRun s body.1 = some s) :
    ∀ s, scopeRun s (withConnT id body).1 = some s := by
  intro s
  show scopeRun s (ConnEvent.openConn id :: (body.1 ++ [ConnEvent.closeConn id])) = some s
  rw [show scopeRun s (ConnEvent.openConn id :: (body.1 ++ [ConnEvent.closeConn id]))
      = scopeRun (id :: s) (body.1 ++ [ConnEvent.closeConn id]) from rfl]
  rw [scopeRun_append, hb (id :: s)]
  simp [scopeRun]

theorem balanced_seqT {a b : OpRun} (ha : ∀ s, scopeRun s a.1 = some s)
    (hb : ∀ s, scopeRun s b.1 = some s) :
    ∀ s, scopeRun s (seqT a b).1 = some s := by
  intro s
  unfold seqT
  cases hx : a.2 with
  | some e => exact ha s
  | none => rw [scopeRun_append, ha s]; exact hb s

theorem balanced_crou_iter (fa fb : Bool) :
    ∀ s, scopeRun s (crou_iter_conn_trace fa fb).1 = some s :=
  balanced_withConnT 0
    (balanced_seqT (balanced_bodyT fa) (balanced_withConnT 1 (balanced_bodyT fb)))

theorem balanced_crou_foldl :
    ∀ (scen : List (Bool × Bool)) (acc : OpRun),
      (∀ s, scopeRun s acc.1 = some s) →
      ∀ s, scopeRun s
        ((scen.foldl (fun acc sc => seqT acc (crou_iter_conn_trace sc.1 sc.2)) acc)).1
          = some s := by
  intro scen
  induction scen with
  | nil => intro acc hacc; exact hacc
  | cons sc rest ih =>
      intro acc hacc
      exact ih _ (balanced_seqT hacc (balanced_crou_iter sc.1 sc.2))

/-- Claim C8 counterexample: in `SQL.create_read_only_users` the second
`with DatabaseConnection` block (sql.py line 99) is nested inside the
first one (line 60), so already one iteration of the user loop with no
failures holds two connections open at the same time — the operation does
not hold exactly one connection for its exclusive duration. -/
theorem claim8_counterexample :
    maxDepth (create_read_only_users_conn_trace [(false, false)]).1 = 2 ∧
    ¬ maxDepth (create_read_only_users_conn_trace [(false, false)]).1 ≤ 1 := by
  constructor
  · rfl
  · decide

/-- Claim C8 (amended): every database-mutating operation of `SQL` opens
its connections inside the operation's own scope and closes every one of
them before the operation returns, on every exit path including a raising
body (`wellScoped`); `create_database`, `create_tables`,
`create_read_only_users` (whole doubled loop, any failure scenario),
`df_insert_to_database`, `execute_batch_sql_commands` and `truncate_db`
never leak a connection past the operation; but while the other five
operations hold at most one connection at a time, `create_read_only_users`
nests its per-database grant connection inside the still-open server
connection, holding two at once. -/
theorem claim8_connections_scoped_but_nested :
    (∀ dbExists f1 f2 : Bool,
      wellScoped (create_database_conn_trace dbExists f1 f2).1 ∧
      maxDepth (create_database_conn_trace dbExists f1 f2).1 ≤ 1) ∧
    (∀ f : Bool, wellScoped (create_tables_conn_trace f).1 ∧
      maxDepth (create_tables_conn_trace f).1 ≤ 1) ∧
    (∀ f : Bool, wellScoped (truncate_db_conn_trace f).1 ∧
      maxDepth (truncate_db_conn_trace f).1 ≤ 1) ∧
    (∀ f : Bool, wellScoped (execute_batch_conn_trace f).1 ∧
      maxDepth (execute_batch_conn_trace f).1 ≤ 1) ∧
    (∀ (rows : List (List (String × Val))) (batchFail : Bool),
      wellScoped (df_insert_conn_trace rows batchFail).1 ∧
      maxDepth (df_insert_conn_trace rows batchFail).1 ≤ 1) ∧
    (∀ scen : List (Bool × Bool),
      wellScoped (create_read_only_users_conn_trace scen).1) ∧
    maxDepth (crou_iter_conn_trace false false).1 = 2 := by
  refine ⟨?_, ?_, ?_, ?_, ?_, ?_, rfl⟩
  · intro dbExists f1 f2
    cases dbExists <;> cases f1 <;> cases f2 <;> exact ⟨rfl, by decide⟩
  · intro f
    cases f <;> exact ⟨rfl, by decide⟩
  · intro f
    cases f <;> exact ⟨rfl, by decide⟩
  · intro f
    cases f <;> exact ⟨rfl, by decide⟩
  · intro rows batchFail
    cases rows with
    | nil => simp [df_insert_conn_trace, wellScoped, scopeRun, maxDepth, maxDepthAux]
    | cons r rs =>
        have hne : ((r :: rs : List (List (String × Val)))).isEmpty = false := rfl
        cases batchFail with
        | false =>
            constructor
            · show scopeRun [] (df_insert_conn_trace (r :: rs) false).1 = some []
              simp only [df_insert_conn_trace, hne]
              decide
            · show maxDepth (df_insert_conn_trace (r :: rs) false).1 ≤ 1
              simp only [df_insert_conn_trace, hne]
              decide
        | true =>
            constructor
            · show scopeRun [] (df_insert_conn_trace (r :: rs) true).1 = some []
              simp only [df_insert_conn_trace, hne]
              decide
            · show maxDepth (df_insert_conn_trace (r :: rs) true).1 ≤ 1
              simp only [df_insert_conn_trace, hne]
              decide
  · intro scen
    exact balanced_crou_foldl scen ([], none) (fun _ => rfl) []

/-- Claim C10: `DatabaseConnection.__exit__` resets the stored connection
to `None` and returns Python `None`, which is falsy, so the `with`
statement never suppresses the body's exception; through the `with`
combinator this means the body's exception is propagated unchanged and
the connection-close event is the last event before propagation. -/
theorem claim10_exit_never_suppresses (dc : DBConn) (id : Nat)
    (body : List ConnEvent) (exc : Option Unit) :
    (databaseConnection_exit dc).1.conn = none ∧
    pyTruthy (databaseConnection_exit dc).2 = false ∧
    (withConnT id (body, exc)).2 = exc ∧
    (withConnT id (body, exc)).1.getLast? = some (ConnEvent.closeConn id) := by
  refine ⟨rfl, rfl, rfl, ?_⟩
  show (ConnEvent.openConn id :: (body ++ [ConnEvent.closeConn id])).getLast?
    = some (ConnEvent.closeConn id)
  rw [← List.cons_append]
  exact List.getLast?_concat _

theorem natCharsAux_mem :
    ∀ (fuel n : Nat) (c : Char), c ∈ natCharsAux fuel n →
      ∃ d, d < 10 ∧ c = Nat.digitChar d := by
  intro fuel
  induction fuel with
  | zero => intro n c hc; exact absurd hc (List.not_mem_nil c)
  | succ fuel ih =>
      intro n c hc
      by_cases h : n < 10
      · rw [show natCharsAux (fuel + 1) n = [Nat.digitChar n] from by
            simp [natCharsAux, h]] at hc
        rcases List.mem_singleton.mp hc with rfl
        exact ⟨n, h, rfl⟩
      · rw [show natCharsAux (fuel + 1) n
            = natCharsAux fuel (n / 10) ++ [Nat.digitChar (n % 10)] from by
            simp [natCharsAux, h]] at hc
        rcases List.mem_append.mp hc with hc | hc
        · exact ih (n / 10) c hc
        · rcases List.mem_singleton.mp hc with rfl
          exact ⟨n % 10, Nat.mod_lt n (by omega), rfl⟩

theorem natChars_mem :
    ∀ (n : Nat) (c : Char), c ∈ natChars n → ∃ d, d < 10 ∧ c = Nat.digitChar d :=
  fun n => natCharsAux_mem (n + 1) n

theorem digitChar_safe :
    ∀ d, d < 10 → Nat.digitChar d ≠ squote ∧ Nat.digitChar d ≠ lbrace ∧
      Nat.digitChar d ≠ rbrace := by
  decide

theorem intChars_safe (n : Int) :
    ∀ c ∈ intChars n, c ≠ squote ∧ c ≠ lbrace ∧ c ≠ rbrace := by
  cases n with
  | ofNat m =>
      intro c hc
      obtain ⟨d, hd, rfl⟩ := natChars_mem m c hc
      exact digitChar_safe d hd
  | negSucc m =>
      intro c hc
      rcases List.mem_cons.mp hc with rfl | hc
      · refine ⟨by decide, by decide, by decide⟩
      · obtain ⟨d, hd, rfl⟩ := natChars_mem (m + 1) c hc
        exact digitChar_safe d hd

theorem pyRemoveSQuote_no_squote (cs : List Char) : squote ∉ pyRemoveSQuote cs := by
  intro h
  have := List.mem_filter.mp h
  simp at this

theorem valueLiteral_litOK (v : Val) : litOK (valueLiteral v) := by
  cases v with
  | null => exact Or.inl rfl
  | vstr s => exact Or.inr ⟨pyRemoveSQuote s.data, rfl, pyRemoveSQuote_no_squote s.data⟩
  | vint n =>
      refine Or.inr ⟨intChars n, rfl, fun h => ?_⟩
      exact absurd rfl (intChars_safe n squote h).1
  | vbool b =>
      cases b with
      | false => exact Or.inr ⟨"False".data, rfl, by decide⟩
      | true => exact Or.inr ⟨"True".data, rfl, by decide⟩

theorem count_squote_valueLiteral (v : Val) :
    (valueLiteral v).count squote = if v = Val.null then 0 else 2 := by
  rcases valueLiteral_litOK v with h | ⟨body, hb, hnb⟩
  · have hv : v = Val.null := by
      cases v with
      | null => rfl
      | vstr s =>
          exfalso
          have h0 := congrArg List.head? h
          simp [valueLiteral] at h0
          exact absurd h0 (by decide)
      | vint n =>
          exfalso
          have h0 := congrArg List.head? h
          simp [valueLiteral] at h0
          exact absurd h0 (by decide)
      | vbool b =>
          exfalso
          have h0 := congrArg List.head? h
          simp [valueLiteral] at h0
          exact absurd h0 (by decide)
    rw [hv, if_pos rfl]
    decide
  · have hv : v ≠ Val.null := by
      intro hv
      rw [hv] at hb
      have h0 := congrArg List.head? hb
      simp [valueLiteral] at h0
      exact absurd h0.symm (by decide)
    rw [if_neg hv, hb]
    simp [List.count_cons, List.count_append, List.count_eq_zero.mpr hnb]

theorem valueLiteral_no_brace (v : Val)
    (hv : lbrace ∉ pyStrChars v ∧ rbrace ∉ pyStrChars v) :
    lbrace ∉ valueLiteral v ∧ rbrace ∉ valueLiteral v := by
  cases v with
  | null => exact ⟨by decide, by decide⟩
  | vstr s =>
      constructor
      · intro h
        rcases List.mem_cons.mp h with h | h
        · exact absurd h.symm (by decide)
        rcases List.mem_append.mp h with h | h
        · exact hv.1 ((List.mem_filter.mp h).1)
        · exact absurd (List.mem_singleton.mp h) (by decide)
      · intro h
        rcases List.mem_cons.mp h with h | h
        · exact absurd h.symm (by decide)
        rcases List.mem_append.mp h with h | h
        · exact hv.2 ((List.mem_filter.mp h).1)
        · exact absurd (List.mem_singleton.mp h) (by decide)
  | vint n =>
      constructor
      · intro h
        rcases List.mem_cons.mp h with h | h
        · exact absurd h.symm (by decide)
        rcases List.mem_append.mp h with h | h
        · exact absurd rfl (intChars_safe n lbrace h).2.1
        · exact absurd (List.mem_singleton.mp h) (by decide)
      · intro h
        rcases List.mem_cons.mp h with h | h
        · exact absurd h.symm (by decide)
        rcases List.mem_append.mp h with h | h
        · exact absurd rfl (intChars_safe n rbrace h).2.2
        · exact absurd (List.mem_singleton.mp h) (by decide)
  | vbool b => cases b with
      | false => exact ⟨by decide, by decide⟩
      | true => exact ⟨by decide, by decide⟩

theorem mem_pyJoin {c : Char} {sep : List Char} :
    ∀ l, c ∈ pyJoin sep l → c ∈ sep ∨ ∃ x ∈ l, c ∈ x := by
  intro l
  induction l with
  | nil => intro h; exact absurd h (List.not_mem_nil c)
  | cons x xs ih =>
      cases xs with
      | nil =>
          intro h
          exact Or.inr ⟨x, List.mem_singleton.mpr rfl, h⟩
      | cons y ys =>
          intro h
          rcases (by simpa [pyJoin, List.append_assoc] using h :
              c ∈ x ∨ c ∈ sep ∨ c ∈ pyJoin sep (y :: ys)) with h | h | h
          · exact Or.inr ⟨x, List.mem_cons_self x _, h⟩
          · exact Or.inl h
          · rcases ih h with h | ⟨z, hz, hcz⟩
            · exact Or.inl h
            · exact Or.inr ⟨z, List.mem_cons_of_mem x hz, hcz⟩

theorem count_pyJoin {a : Char} {sep : List Char} (hsep : a ∉ sep) :
    ∀ l, (pyJoin sep l).count a = (l.map (fun x => x.count a)).sum := by
  intro l
  induction l with
  | nil => rfl
  | cons x xs ih =>
      cases xs with
      | nil => simp [pyJoin]
      | cons y ys =>
          show (x ++ sep ++ pyJoin sep (y :: ys)).count a = _
          rw [List.count_append, List.count_append, ih,
            List.count_eq_zero.mpr hsep]
          simp

theorem sum_count_squote_valueLiterals (row : List (String × Val)) :
    ((row.map (fun cv => valueLiteral cv.2)).map (fun x => x.count squote)).sum
      = 2 * row.countP (fun cv => decide (cv.2 ≠ Val.null)) := by
  induction row with
  | nil => rfl
  | cons cv rest ih =>
      simp only [List.map_cons, List.sum_cons, List.countP_cons, ih,
        count_squote_valueLiteral]
      by_cases h : cv.2 = Val.null
      · simp [h]
      · simp [h]
        ring

/-- Claim C2: every output of the row serializer is a fully interpolated
statement — for brace-free table and column names and brace-free string
values there is no brace character left in the output, hence no
unresolved `{col}` placeholder; the single quotes in the output are
exactly the two delimiters of each non-null value literal; every value
literal is either the `NULL` keyword or a quoted literal with no
unescaped single quote in its body; and a string value's embedded single
quotes are stripped, not escaped: the emitted body is a subsequence of
the original with exactly the quote characters removed. -/
theorem claim2_serializer_executable (table : String) (row : List (String × Val))
    (htable : squote ∉ table.data ∧ lbrace ∉ table.data ∧ rbrace ∉ table.data)
    (hcols : ∀ cv ∈ row, squote ∉ (Prod.fst cv).data ∧
      lbrace ∉ (Prod.fst cv).data ∧ rbrace ∉ (Prod.fst cv).data)
    (hvals : ∀ cv ∈ row, lbrace ∉ pyStrChars (Prod.snd cv) ∧
      rbrace ∉ pyStrChars (Prod.snd cv)) :
    (lbrace ∉ generate_sql_row_insert table row ∧
     rbrace ∉ generate_sql_row_insert table row) ∧
    (generate_sql_row_insert table row).count squote
      = 2 * row.countP (fun cv => decide (cv.2 ≠ Val.null)) ∧
    (∀ cv ∈ row, litOK (valueLiteral (Prod.snd cv))) ∧
    (∀ s : String, squote ∉ pyRemoveSQuote s.data ∧
      (pyRemoveSQuote s.data).Sublist s.data ∧
      pyRemoveSQuote s.data = s.data.filter (fun c => c ≠ squote)) := by
  refine ⟨?_, ?_, fun cv _ => valueLiteral_litOK cv.2,
    fun s => ⟨pyRemoveSQuote_no_squote s.data, List.filter_sublist s.data, rfl⟩⟩
  · constructor
    · intro h
      simp only [generate_sql_row_insert, List.mem_append] at h
      rcases h with ((((((h | h) | h) | h) | h) | h) | h)
      · exact absurd h (by decide)
      · exact htable.2.1 h
      · exact absurd h (by decide)
      · rcases mem_pyJoin _ h with h | ⟨x, hx, hcx⟩
        · exact absurd h (by decide)
        · obtain ⟨cv, hcv, rfl⟩ := List.mem_map.mp hx
          exact (hcols cv hcv).2.1 hcx
      · exact absurd h (by decide)
      · rcases mem_pyJoin _ h with h | ⟨x, hx, hcx⟩
        · exact absurd h (by decide)
        · obtain ⟨cv, hcv, rfl⟩ := List.mem_map.mp hx
          exact (valueLiteral_no_brace cv.2 (hvals cv hcv)).1 hcx
      · exact absurd h (by decide)
    · intro h
      simp only [generate_sql_row_insert, List.mem_append] at h
      rcases h with ((((((h | h) | h) | h) | h) | h) | h)
      · exact absurd h (by decide)
      · exact htable.2.2 h
      · exact absurd h (by decide)
      · rcases mem_pyJoin _ h with h | ⟨x, hx, hcx⟩
        · exact absurd h (by decide)
        · obtain ⟨cv, hcv, rfl⟩ := List.mem_map.mp hx
          exact (hcols cv hcv).2.2 hcx
      · exact absurd h (by decide)
      · rcases mem_pyJoin _ h with h | ⟨x, hx, hcx⟩
        · exact absurd h (by decide)
        · obtain ⟨cv, hcv, rfl⟩ := List.mem_map.mp hx
          exact (valueLiteral_no_brace cv.2 (hvals cv hcv)).2 hcx
      · exact absurd h (by decide)
  · have hsep : squote ∉ ", ".data := by decide
    have hcolcount : ((row.map (fun cv => (Prod.fst cv).data)).map
        (fun x => x.count squote)).sum = 0 := by
      apply List.sum_eq_zero
      intro x hx
      obtain ⟨y, hy, rfl⟩ := List.mem_map.mp hx
      obtain ⟨cv, hcv, rfl⟩ := List.mem_map.mp hy
      exact List.count_eq_zero.mpr (hcols cv hcv).1
    simp only [generate_sql_row_insert, List.count_append]
    rw [count_pyJoin hsep, count_pyJoin hsep, hcolcount,
      sum_count_squote_valueLiterals,
      List.count_eq_zero.mpr htable.1]
    have hA : List.count squote
        ['I', 'N', 'S', 'E', 'R', 'T', ' ', 'I', 'N', 'T', 'O', ' ', '\n', '\t'] = 0 := by
      decide
    have hB : List.count squote [' ', '('] = 0 := by decide
    have hC : List.count squote
        [')', '\n', 'V', 'A', 'L', 'U', 'E', 'S', '\n', '\t', '('] = 0 := by decide
    have hD : List.count squote [')', ';', '\n'] = 0 := by decide
    rw [hA, hB, hC, hD]
    omega

/-- Witness for C2: a station row whose name contains a single quote;
the output has no brace, exactly the four delimiting quotes of its two
non-null values, and the quoted name's literal is well formed. -/
theorem claim2_witness :
    (lbrace ∉ generate_sql_row_insert "station"
      [("station_name", Val.vstr (String.mk ['O', squote, 'B'])),
       ("zip", Val.vint 19104), ("ev_pricing", Val.null)]) ∧
    (generate_sql_row_insert "station"
      [("station_name", Val.vstr (String.mk ['O', squote, 'B'])),
       ("zip", Val.vint 19104), ("ev_pricing", Val.null)]).count squote = 4 ∧
    litOK (valueLiteral (Val.vstr (String.mk ['O', squote, 'B']))) := by
  have h := claim2_serializer_executable "station"
    [("station_name", Val.vstr (String.mk ['O', squote, 'B'])),
     ("zip", Val.vint 19104), ("ev_pricing", Val.null)]
    (by decide) (by decide) (by decide)
  exact ⟨h.1.1, h.2.1.trans (by decide),
    h.2.2.1 ("station_name", Val.vstr (String.mk ['O', squote, 'B'])) (by decide)⟩

theorem isInfix_append_right_of {x M : List Char} (D : List Char)
    (h : x <:+: M) : x <:+: M ++ D := by
  have h2 : M <:+: M ++ D := List.IsPrefix.isInfix (List.prefix_append M D)
  exact List.IsInfix.trans h h2

theorem isInfix_append_left_of {x M : List Char} (P : List Char)
    (h : x <:+: M) : x <:+: P ++ M := by
  have h2 : M <:+: P ++ M := List.IsSuffix.isInfix (List.suffix_append P M)
  exact List.IsInfix.trans h h2

theorem infix_pyJoin {x sep : List Char} :
    ∀ l, x ∈ l → x <:+: pyJoin sep l := by
  intro l
  induction l with
  | nil => intro h; exact absurd h (List.not_mem_nil x)
  | cons y ys ih =>
      cases ys with
      | nil =>
          intro h
          rcases List.mem_singleton.mp h with rfl
          exact List.infix_refl x
      | cons z zs =>
          intro h
          rcases List.mem_cons.mp h with rfl | h
          · show x <:+: x ++ sep ++ pyJoin sep (z :: zs)
            rw [List.append_assoc]
            exact List.IsPrefix.isInfix (List.prefix_append x _)
          · show x <:+: y ++ sep ++ pyJoin sep (z :: zs)
            rw [List.append_assoc]
            exact isInfix_append_left_of y (isInfix_append_left_of sep (ih h))

/-- Claim C3: the serializer emits the unquoted `NULL` keyword exactly for
a null/NaN/missing cell; any other cell is emitted as its string form
wrapped in single quotes (with embedded quotes stripped — for quote-free
string forms the body is the string form itself); and each cell's literal
occurs verbatim inside the generated INSERT statement's VALUES list. -/
theorem claim3_null_keyword_iff_null (v : Val) (table : String)
    (row : List (String × Val)) :
    (valueLiteral v = "NULL".data ↔ v = Val.null) ∧
    (v ≠ Val.null →
      valueLiteral v = squote :: pyRemoveSQuote (pyStrChars v) ++ [squote]) ∧
    (v ≠ Val.null → squote ∉ pyStrChars v →
      valueLiteral v = squote :: pyStrChars v ++ [squote]) ∧
    (∀ cv ∈ row, valueLiteral (Prod.snd cv) <:+: generate_sql_row_insert table row) := by
  have hbody : ∀ w : Val, w ≠ Val.null →
      valueLiteral w = squote :: pyRemoveSQuote (pyStrChars w) ++ [squote] := by
    intro w hw
    cases w with
    | null => exact absurd rfl hw
    | vstr s => rfl
    | vint n =>
        show squote :: pyStrChars (Val.vint n) ++ [squote] = _
        rw [show pyRemoveSQuote (pyStrChars (Val.vint n))
            = pyStrChars (Val.vint n) from
          List.filter_eq_self.mpr (fun c hc => by
            simpa using (intChars_safe n c hc).1)]
    | vbool b => cases b <;> rfl
  refine ⟨⟨?_, fun h => by rw [h]; rfl⟩, hbody v, ?_, ?_⟩
  · intro h
    cases v with
    | null => rfl
    | vstr s =>
        exfalso
        have h0 := congrArg List.head? h
        simp [valueLiteral] at h0
        exact absurd h0 (by decide)
    | vint n =>
        exfalso
        have h0 := congrArg List.head? h
        simp [valueLiteral] at h0
        exact absurd h0 (by decide)
    | vbool b =>
        exfalso
        have h0 := congrArg List.head? h
        simp [valueLiteral] at h0
        exact absurd h0 (by decide)
  · intro hv hq
    rw [hbody v hv]
    rw [show pyRemoveSQuote (pyStrChars v) = pyStrChars v from
      List.filter_eq_self.mpr (fun c hc => by
        rcases eq_or_ne c squote with rfl | hne
        · exact absurd hc hq
        · simpa using hne)]
  · intro cv hcv
    have h1 : valueLiteral cv.2 ∈ row.map (fun cv => valueLiteral cv.2) :=
      List.mem_map.mpr ⟨cv, hcv, rfl⟩
    have h2 : valueLiteral cv.2
        <:+: pyJoin ", ".data (row.map (fun cv => valueLiteral cv.2)) :=
      infix_pyJoin _ h1
    show valueLiteral cv.2 <:+: "INSERT INTO \n\t".data ++ table.data ++ " (".data
      ++ pyJoin ", ".data (row.map (fun cv => cv.1.data))
      ++ ")\nVALUES\n\t(".data
      ++ pyJoin ", ".data (row.map (fun cv => valueLiteral cv.2))
      ++ ");\n".data
    simp only [List.append_assoc]
    apply isInfix_append_left_of
    apply isInfix_append_left_of
    apply isInfix_append_left_of
    apply isInfix_append_left_of
    apply isInfix_append_left_of
    exact isInfix_append_right_of _ h2

/-- Witness for C3: a null cell serializes to the `NULL` keyword; a
non-null integer cell serializes to its quoted string form; the name
literal occurs inside the full statement for a one-column station row. -/
theorem claim3_witness :
    valueLiteral Val.null = "NULL".data ∧
    valueLiteral (Val.vint 34) = squote :: pyStrChars (Val.vint 34) ++ [squote] ∧
    valueLiteral (Val.vstr "Philadelphia")
      <:+: generate_sql_row_insert "station" [("city", Val.vstr "Philadelphia")] := by
  have h := claim3_null_keyword_iff_null (Val.vint 34) "station"
    [("city", Val.vstr "Philadelphia")]
  exact ⟨(claim3_null_keyword_iff_null Val.null "station" []).1.mpr rfl,
    h.2.2.1 (by decide) (by decide),
    h.2.2.2 ("city", Val.vstr "Philadelphia") (by decide)⟩

theorem perRowLoop_fail_sound (execOk : List Char → Bool) :
    ∀ l, ∀ r ∈ (perRowLoop execOk l).1, ∃ p ∈ l, p.1 = r ∧ execOk p.2 = false := by
  intro l
  induction l with
  | nil => intro r hr; exact absurd hr (List.not_mem_nil r)
  | cons p rest ih =>
      intro r hr
      by_cases h : execOk p.2
      · rw [show (perRowLoop execOk (p :: rest)).1 = (perRowLoop execOk rest).1 from by
            cases p; simp [perRowLoop, h]] at hr
        obtain ⟨q, hq, hqr⟩ := ih r hr
        exact ⟨q, List.mem_cons_of_mem p hq, hqr⟩
      · rw [show (perRowLoop execOk (p :: rest)).1
            = p.1 :: (perRowLoop execOk rest).1 from by
            cases p; simp [perRowLoop, h]] at hr
        rcases List.mem_cons.mp hr with rfl | hr
        · exact ⟨p, List.mem_cons_self p rest, rfl, by simpa using h⟩
        · obtain ⟨q, hq, hqr⟩ := ih r hr
          exact ⟨q, List.mem_cons_of_mem p hq, hqr⟩

theorem perRowLoop_fail_complete (execOk : List Char → Bool) :
    ∀ l, ∀ p ∈ l, execOk p.2 = false → p.1 ∈ (perRowLoop execOk l).1 := by
  intro l
  induction l with
  | nil => intro p hp; exact absurd hp (List.not_mem_nil p)
  | cons q rest ih =>
      intro p hp hfail
      rcases List.mem_cons.mp hp with rfl | hp
      · rw [show (perRowLoop execOk (p :: rest)).1
            = p.1 :: (perRowLoop execOk rest).1 from by
            cases p; simp_all [perRowLoop]]
        exact List.mem_cons_self _ _
      · by_cases h : execOk q.2
        · rw [show (perRowLoop execOk (q :: rest)).1 = (perRowLoop execOk rest).1 from by
              cases q; simp [perRowLoop, h]]
          exact ih p hp hfail
        · rw [show (perRowLoop execOk (q :: rest)).1
              = q.1 :: (perRowLoop execOk rest).1 from by
              cases q; simp [perRowLoop, h]]
          exact List.mem_cons_of_mem _ (ih p hp hfail)

theorem perRowLoop_countRollback (execOk : List Char → Bool) :
    ∀ l, countRollback (perRowLoop execOk l).2 = ((perRowLoop execOk l).1).length := by
  intro l
  induction l with
  | nil => rfl
  | cons p rest ih =>
      by_cases h : execOk p.2 <;>
        · cases p
          simp_all [perRowLoop, countRollback]

theorem perRowLoop_countExecRow (execOk : List Char → Bool) :
    ∀ l, countExecRow (perRowLoop execOk l).2 = l.length := by
  intro l
  induction l with
  | nil => rfl
  | cons p rest ih =>
      by_cases h : execOk p.2 <;>
        · cases p
          simp_all [perRowLoop, countExecRow]

theorem perRowLoop_discipline (execOk : List Char → Bool) :
    ∀ l, rollbackDiscipline execOk (perRowLoop execOk l).2 = true := by
  intro l
  induction l with
  | nil => rfl
  | cons p rest ih =>
      by_cases h : execOk p.2 <;>
        · cases p
          simp_all [perRowLoop, rollbackDiscipline, rollbackDisciplineAux]

theorem perRowLoop_all_ok (execOk : List Char → Bool) :
    ∀ l, (∀ p ∈ l, execOk p.2 = true) → (perRowLoop execOk l).1 = [] := by
  intro l
  induction l with
  | nil => intro _; rfl
  | cons p rest ih =>
      intro h
      have hp : execOk p.2 = true := h p (List.mem_cons_self p rest)
      rw [show (perRowLoop execOk (p :: rest)).1 = (perRowLoop execOk rest).1 from by
        cases p; simp [perRowLoop, hp]]
      exact ih (fun q hq => h q (List.mem_cons_of_mem p hq))

theorem perRowLoop_single_bad (execOk : List Char → Bool) :
    ∀ (l : List ((List (String × Val)) × List Char)) (k : Nat) (hk : k < l.length),
      execOk (l.get ⟨k, hk⟩).2 = false →
      (∀ j (hj : j < l.length), j ≠ k → execOk (l.get ⟨j, hj⟩).2 = true) →
      (perRowLoop execOk l).1 = [(l.get ⟨k, hk⟩).1] := by
  intro l
  induction l with
  | nil => intro k hk; exact absurd hk (by simp)
  | cons p rest ih =>
      intro k hk hbad hothers
      cases k with
      | zero =>
          have hp : execOk p.2 = false := hbad
          rw [show (perRowLoop execOk (p :: rest)).1
              = p.1 :: (perRowLoop execOk rest).1 from by
              cases p; simp_all [perRowLoop]]
          rw [perRowLoop_all_ok execOk rest (fun q hq => by
            obtain ⟨j, hj, rfl⟩ := List.mem_iff_get.mp hq
            exact hothers (j + 1) (Nat.succ_lt_succ j.isLt) (Nat.succ_ne_zero j))]
          rfl
      | succ n =>
          have hp : execOk p.2 = true :=
            hothers 0 (Nat.succ_pos _) (Nat.succ_ne_zero n).symm
          rw [show (perRowLoop execOk (p :: rest)).1 = (perRowLoop execOk rest).1 from by
            cases p; simp_all [perRowLoop]]
          exact ih n (Nat.lt_of_succ_lt_succ hk) hbad
            (fun j hj hne => hothers (j + 1) (Nat.succ_lt_succ hj)
              (fun he => hne (Nat.succ.inj he)))

/-- Claim C1: for a non-empty row set, if the single batched execution of
the concatenated per-row INSERT statements succeeds, the loader returns
an empty failure set having performed only the batch action; if the batch
raises, it falls back to per-row execution where a row is in the failure
set iff its own statement's execution raised, each row's statement is
executed exactly once (no retry), a rollback immediately follows each
failed row execution and nothing else, and with exactly one bad row `k`
the failure set is exactly that row. -/
theorem claim1_batch_fallback_isolation (table : String)
    (rows : List (List (String × Val))) (execOk : List Char → Bool)
    (hne : rows ≠ []) :
    (execOk ((rows.map (generate_sql_row_insert table)).flatten) = true →
      df_insert_to_database table rows execOk = ([], [DbAction.execBatch])) ∧
    (execOk ((rows.map (generate_sql_row_insert table)).flatten) = false →
      (∀ r ∈ (df_insert_to_database table rows execOk).1,
        ∃ p ∈ rows.zip (rows.map (generate_sql_row_insert table)),
          p.1 = r ∧ execOk p.2 = false) ∧
      (∀ p ∈ rows.zip (rows.map (generate_sql_row_insert table)),
        execOk p.2 = false → p.1 ∈ (df_insert_to_database table rows execOk).1) ∧
      countRollback (df_insert_to_database table rows execOk).2
        = ((df_insert_to_database table rows execOk).1).length ∧
      countExecRow (df_insert_to_database table rows execOk).2 = rows.length ∧
      rollbackDiscipline execOk (df_insert_to_database table rows execOk).2 = true ∧
      (∀ k (hk : k < (rows.zip (rows.map (generate_sql_row_insert table))).length),
        execOk ((rows.zip (rows.map (generate_sql_row_insert table))).get ⟨k, hk⟩).2 = false →
        (∀ j (hj : j < (rows.zip (rows.map (generate_sql_row_insert table))).length),
          j ≠ k →
          execOk ((rows.zip (rows.map (generate_sql_row_insert table))).get ⟨j, hj⟩).2 = true) →
        (df_insert_to_database table rows execOk).1
          = [((rows.zip (rows.map (generate_sql_row_insert table))).get ⟨k, hk⟩).1])) := by
  have hempty : (rows.map (generate_sql_row_insert table)).isEmpty = false := by
    cases rows with
    | nil => exact absurd rfl hne
    | cons r rs => rfl
  constructor
  · intro hb
    simp [df_insert_to_database, hempty, hb]
  · intro hb
    have hout : df_insert_to_database table rows execOk
        = ((perRowLoop execOk (rows.zip (rows.map (generate_sql_row_insert table)))).1,
           DbAction.execBatch ::
             (perRowLoop execOk (rows.zip (rows.map (generate_sql_row_insert table)))).2) := by
      simp [df_insert_to_database, hempty, hb]
    rw [hout]
    refine ⟨perRowLoop_fail_sound execOk _, perRowLoop_fail_complete execOk _, ?_, ?_, ?_, ?_⟩
    · simpa [countRollback] using perRowLoop_countRollback execOk
        (rows.zip (rows.map (generate_sql_row_insert table)))
    · have hlen : (rows.zip (rows.map (generate_sql_row_insert table))).length
          = rows.length := by simp
      simpa [countExecRow, hlen] using perRowLoop_countExecRow execOk
        (rows.zip (rows.map (generate_sql_row_insert table)))
    · simpa [rollbackDiscipline] using perRowLoop_discipline execOk
        (rows.zip (rows.map (generate_sql_row_insert table)))
    · intro k hk hbad hothers
      exact perRowLoop_single_bad execOk _ k hk hbad hothers

/-- Claim C9: with a zero-row dataframe the loader returns an empty
failure set, performs no database action at all (no batch attempt, no
per-row execution, no rollback) and opens no connection. -/
theorem claim9_empty_dataframe_no_work (table : String)
    (execOk : List Char → Bool) (batchFail : Bool) :
    df_insert_to_database table [] execOk = ([], []) ∧
    df_insert_conn_trace [] batchFail = ([], none) := by
  exact ⟨rfl, rfl⟩

set_option maxRecDepth 40000 in
/-- Witness for C1: two evse rows of which the second (whose statement
contains the `NULL` literal, which this destination oracle rejects)
is the single bad row: the batch fails, the failure set is exactly the
second row, both rows were executed exactly once, and the rollback
placement is correct. -/
theorem claim1_witness :
    (df_insert_to_database "evse" [[("id", Val.vstr "1")], [("id", Val.null)]]
      (fun c => !(decide ("NULL".data <:+: c)))).1 = [[("id", Val.null)]] ∧
    countExecRow (df_insert_to_database "evse"
      [[("id", Val.vstr "1")], [("id", Val.null)]]
      (fun c => !(decide ("NULL".data <:+: c)))).2 = 2 ∧
    rollbackDiscipline (fun c => !(decide ("NULL".data <:+: c)))
      (df_insert_to_database "evse" [[("id", Val.vstr "1")], [("id", Val.null)]]
        (fun c => !(decide ("NULL".data <:+: c)))).2 = true := by
  have h := claim1_batch_fallback_isolation "evse"
    [[("id", Val.vstr "1")], [("id", Val.null)]]
    (fun c => !(decide ("NULL".data <:+: c))) (by decide)
  have h2 := h.2 (by decide)
  refine ⟨(h2.2.2.2.2.2 1 (by decide) (by decide) (by decide)).trans (by decide),
    h2.2.2.2.1, h2.2.2.2.2.1⟩

end AFDC
